import Mathlib

/-!
# State-diff analysis pipeline: shallow embedding and verification

This file embeds the core of the repository's state-diff decoding pipeline
(`StateDiffAnalyzer.analyze`, `EventAggregator.aggregate` and the enricher
plugin contract) as executable Lean definitions and proves properties of the
natural-language specification against them.

Modelling conventions, stated once:

* Token and lamport amounts travel through the TypeScript code as canonical
  decimal strings and are compared after `BigInt` conversion (or, for the
  fee-payer lookup, by string equality against `fee.toString()`).  On
  canonical decimal strings both comparisons coincide with numeric equality,
  so amounts are modelled as `Nat`.
* Native (SOL) pre/post balances are JavaScript `number`s (IEEE-754 binary64
  doubles holding integer values).  Their subtraction is modelled by
  `jsharness.jsIntSub`, which rounds the exact integer difference to 53
  significant bits, round-to-nearest, ties-to-even — exactly what binary64
  subtraction does on integer-valued operands (the rounded result is within
  double range here, so no overflow case arises).
* SPL token amounts go through `BigInt`, which is exact: they are plain `Int`
  subtractions in the model.
* `meta.err` is opaque in the source (`unknown | null`); it is modelled as
  `Option String`.  JavaScript truthiness of strings (empty string is falsy,
  used by the `a || b || 'unknown'` fee-payer fallback) is modelled
  explicitly by `jsOrStr`.
* Confidence scores are computed in the source with double arithmetic on the
  constants 0.5/0.2/0.3/0.6/0.25/0.7/0.8/1.0, all exact multiples of 0.05.
  The model computes them exactly, in hundredths (0.5 ↦ 50, …, 1.0 ↦ 100),
  so that every value and comparison stays in `Nat`.  Every comparison the
  code performs on these sums (`> 0.7`, `> 0.8`, `Math.min · 1.0`) produces
  the same branch outcome for the double values as for the exact values, so
  the classification behaviour is identical; only the stored numeric value
  of a capped score can differ from the double by less than 2⁻⁵².
  Likewise `amountTolerance` (default 0.001) is only ever consumed through
  the integer `BigInt(Math.floor(amountTolerance * 100000))`; the model
  stores that scaled integer (0.001 ↦ 100; the double product
  `0.001 * 100000` is `100.0000000000000028…`, whose floor is `100`).
* JavaScript `Map`s iterate in insertion order; grouping is modelled by an
  insertion-ordered association list.  `Set` membership and first-insertion
  de-duplication are modelled likewise.
-/

namespace jsharness

/-- Floor of the base-2 logarithm, with explicit fuel so the kernel can
evaluate it.  1200 halvings cover every value below 2¹²⁰⁰, far beyond the
binary64 overflow threshold 2¹⁰²⁴ — every integer a double can hold. -/
def log2fuel (fuel n : Nat) : Nat :=
  match fuel with
  | 0 => 0
  | f + 1 => if 2 ≤ n then log2fuel f (n / 2) + 1 else 0

/-- Round a natural number to 53 significant bits, round-to-nearest,
ties-to-even.  This is the value an integer obtains when stored in an
IEEE-754 binary64 double (for magnitudes below the overflow threshold,
which is the only regime a double, and hence a balance, can inhabit). -/
def roundNat53 (n : Nat) : Nat :=
  if n < 2 ^ 53 then n
  else
    let e := log2fuel 1200 n - 52
    let q := n / 2 ^ e
    let r := n % 2 ^ e
    let half := 2 ^ (e - 1)
    let q' :=
      if r > half then q + 1
      else if r < half then q
      else if q % 2 = 0 then q else q + 1
    q' * 2 ^ e

/-- JavaScript subtraction `a - b` of two integer-valued doubles: the exact
integer difference, correctly rounded to binary64 precision. -/
def jsIntSub (a b : Nat) : Int :=
  if b ≤ a then (roundNat53 (a - b) : Int) else -(roundNat53 (b - a) : Int)

/-- JavaScript `x || y` on an optionally-present string `x` (absent or empty
string falls through to `y`). -/
def jsOrStr (x : Option String) (y : String) : String :=
  match x with
  | some s => if s = "" then y else s
  | none => y

/-- Models JavaScript `(Number(a) / Number(b)).toString()` on the subdomain
where both operands are below 2⁵³ and the quotient is an integer: there the
binary64 division is exact and `toString` prints the integer in decimal.
Outside that subdomain JavaScript prints a decimal approximation of the
correctly-rounded quotient; no theorem in this file evaluates the function
there, so that regime is represented by a fixed placeholder string. -/
def jsDivToString (a b : Nat) : String :=
  if b ≠ 0 ∧ a % b = 0 ∧ a < 2 ^ 53 ∧ b < 2 ^ 53 then Nat.repr (a / b)
  else "<non-integral rate>"

end jsharness

namespace statediff

open jsharness

/-- The four atomic event discriminants of `types.ts` (`AtomicEventType`). -/
inductive EvType
  | debitSol
  | creditSol
  | debitSpl
  | creditSpl
deriving DecidableEq, Repr

/-- The string the `type` field holds in the source, used verbatim in the
`${e.signature}-${e.type}-${e.account}` de-duplication key. -/
def EvType.str : EvType → String
  | .debitSol => "DEBIT_SOL"
  | .creditSol => "CREDIT_SOL"
  | .debitSpl => "DEBIT_SPL"
  | .creditSpl => "CREDIT_SPL"

/-- `AtomicEvent` of `types.ts`.  The source is a union of `SolTransferEvent`
(which has a constant `currency: 'SOL'` field) and `SplTokenTransferEvent`;
here the union is flattened into one structure whose SPL-only fields default
to the empty value for SOL events (no code path reads them for SOL events). -/
structure AtomicEvent where
  type : EvType
  account : String
  amount : Nat
  signature : String
  timestamp : Option Int := none
  mint : String := ""
  tokenAccount : String := ""
  owner : String := ""
  decimals : Nat := 0
  programId : String := ""
deriving DecidableEq, Repr

/-- `TokenBalance` of `types.ts` (with `uiTokenAmount.amount` as `Nat`, see
the conventions above; `uiAmount`/`uiAmountString` are display-only and never
read by the embedded code). -/
structure TokenBalance where
  accountIndex : Nat
  mint : String
  owner : String
  programId : String
  amount : Nat
  decimals : Nat
deriving DecidableEq, Repr

/-- `RawTransaction` of `types.ts`, restricted to the fields the embedded
code reads.  `preBalances`/`postBalances` hold integer-valued doubles. -/
structure RawTx where
  signature : String := ""
  slot : Nat := 0
  blockTime : Option Int := none
  err : Option String := none
  fee : Nat := 0
  preBalances : List Nat := []
  postBalances : List Nat := []
  preTokenBalances : List TokenBalance := []
  postTokenBalances : List TokenBalance := []
  accountKeys : List String := []
  logMessages : List String := []
deriving Repr

/-- `StateDiffAnalyzerConfig` with the defaults the constructor installs
(`minBalanceChange` is parsed from its decimal-string form). -/
structure AnalyzerConfig where
  minBalanceChange : Nat := 0
  includeFeeChanges : Bool := false
  traceTemporaryAccounts : Bool := false
deriving Repr

/-- Internal `BalanceChange` record of `StateDiffAnalyzer`. -/
structure BalanceChange where
  accountIndex : Nat
  account : String
  preBalance : Nat
  postBalance : Nat
  change : Int
deriving DecidableEq, Repr

/-- One iteration of the SOL balance loop: `change = postBalance - preBalance`
in double arithmetic, recorded only when non-zero.  A missing `accountKeys`
entry (JavaScript `undefined`) is modelled as `""`; no claim exercises that
case. -/
def mkBalanceChange (tx : RawTx) (i : Nat) : Option BalanceChange :=
  let pre := tx.preBalances.getD i 0
  let post := tx.postBalances.getD i 0
  let change := jsIntSub post pre
  if change = 0 then none
  else some ⟨i, tx.accountKeys.getD i "", pre, post, change⟩

/-- The SOL balance-change list, indices `0 ..< max(len pre, len post)`. -/
def solBalanceChanges (tx : RawTx) : List BalanceChange :=
  (List.range (max tx.preBalances.length tx.postBalances.length)).filterMap
    (mkBalanceChange tx)

/-- `StateDiffAnalyzer.filterFeeChanges`: drop the change equal to `-fee`
only when exactly one qualifies.  The source removes that element by
reference (`c !== feeDebits[0]`); since exactly one element satisfies the
predicate in the branch taken, removing by predicate is the same list. -/
def filterFeeChanges (changes : List BalanceChange) (fee : Nat) : List BalanceChange :=
  let feeDebits := changes.filter (fun c => c.change = -(fee : Int))
  if feeDebits.length = 1 then
    changes.filter (fun c => ¬ c.change = -(fee : Int))
  else changes

/-- `StateDiffAnalyzer.analyzeSolBalanceChanges`. -/
def analyzeSolBalanceChanges (cfg : AnalyzerConfig) (tx : RawTx) : List AtomicEvent :=
  let changes := solBalanceChanges tx
  let filtered := if cfg.includeFeeChanges then changes else filterFeeChanges changes tx.fee
  filtered.filterMap (fun c =>
    if cfg.minBalanceChange ≤ c.change.natAbs then
      some { type := if (0 : Int) < c.change then .creditSol else .debitSol,
             account := c.account, amount := c.change.natAbs,
             signature := tx.signature, timestamp := tx.blockTime }
    else none)

/-- Internal `TokenBalanceChange` record of `StateDiffAnalyzer`. -/
structure TokenBalanceChange where
  accountIndex : Nat
  tokenAccount : String
  owner : String
  mint : String
  decimals : Nat
  programId : String
  preAmount : Nat
  postAmount : Nat
  change : Int
deriving DecidableEq, Repr

/-- `Map.get` over a map built by successive `Map.set` calls keyed on
`accountIndex`: the last write wins. -/
def lookupTB (l : List TokenBalance) (idx : Nat) : Option TokenBalance :=
  l.foldl (fun acc b => if b.accountIndex = idx then some b else acc) none

/-- JavaScript `Set` construction: first occurrence order, duplicates
dropped. -/
def insertionDedup (l : List Nat) : List Nat :=
  l.foldl (fun acc i => if i ∈ acc then acc else acc ++ [i]) []

/-- The iteration order of `allAccountIndices`. -/
def splIndices (tx : RawTx) : List Nat :=
  insertionDedup ((tx.preTokenBalances ++ tx.postTokenBalances).map (·.accountIndex))

/-- One iteration of the token-balance loop: the three-way case analysis on
presence in the pre/post maps.  `calculateTokenAmountChange` is the exact
`BigInt` subtraction `post - pre`. -/
def mkTokenChange (tx : RawTx) (idx : Nat) : Option TokenBalanceChange :=
  match lookupTB tx.preTokenBalances idx, lookupTB tx.postTokenBalances idx with
  | some pre, some post =>
    if pre.amount ≠ post.amount then
      some ⟨idx, tx.accountKeys.getD idx "", post.owner, post.mint,
            post.decimals, post.programId, pre.amount, post.amount,
            (post.amount : Int) - pre.amount⟩
    else none
  | none, some post =>
    if post.amount ≠ 0 then
      some ⟨idx, tx.accountKeys.getD idx "", post.owner, post.mint,
            post.decimals, post.programId, 0, post.amount, (post.amount : Int)⟩
    else none
  | some pre, none =>
    if pre.amount ≠ 0 then
      some ⟨idx, tx.accountKeys.getD idx "", pre.owner, pre.mint,
            pre.decimals, pre.programId, pre.amount, 0, -(pre.amount : Int)⟩
    else none
  | none, none => none

/-- The accumulated `tokenBalanceChanges` list. -/
def tokenBalanceChanges (tx : RawTx) : List TokenBalanceChange :=
  (splIndices tx).filterMap (mkTokenChange tx)

/-- `StateDiffAnalyzer.analyzeSplTokenBalanceChanges`.
`processTemporaryAccountTransfers` is the identity in the source, so the
`traceTemporaryAccounts` branch is a no-op either way. -/
def analyzeSplTokenBalanceChanges (cfg : AnalyzerConfig) (tx : RawTx) : List AtomicEvent :=
  (tokenBalanceChanges tx).filterMap (fun c =>
    if cfg.minBalanceChange ≤ c.change.natAbs then
      some { type := if (0 : Int) < c.change then .creditSpl else .debitSpl,
             account := c.owner, amount := c.change.natAbs,
             signature := tx.signature, timestamp := tx.blockTime,
             mint := c.mint, tokenAccount := c.tokenAccount, owner := c.owner,
             decimals := c.decimals, programId := c.programId }
    else none)

/-- `StateDiffAnalyzer.analyze`: SOL events first, then SPL events. -/
def analyze (cfg : AnalyzerConfig) (tx : RawTx) : List AtomicEvent :=
  analyzeSolBalanceChanges cfg tx ++ analyzeSplTokenBalanceChanges cfg tx

end statediff

namespace aggregator

open jsharness statediff

/-- `EventAggregatorConfig` with the constructor defaults
(`amountTolerance: 0.001`, `includeFeeEvents: false`, `maxSwapHops: 3`,
`generateComplexEvents: true`).  `amountToleranceScaled` holds
`Math.floor(amountTolerance * 100000)`, the only form in which the ratio is
ever consumed (see the header note); the default `0.001` scales to `100`. -/
structure AggConfig where
  amountToleranceScaled : Nat := 100
  includeFeeEvents : Bool := false
  maxSwapHops : Nat := 3
  generateComplexEvents : Bool := true

/-- The default configuration (`new EventAggregator()`). -/
def defaultAggConfig : AggConfig := {}

/-- `TokenInfo` of `types.ts` (the optional `symbol` field is never set by
the embedded code). -/
structure TokenInfo where
  mint : String
  amount : Nat
  decimals : Nat
deriving DecidableEq, Repr

/-- One plugin's namespaced metadata record.  The source type is
`Record<string, any>`; the fields below are the ones any embedded code path
writes. -/
structure PluginMeta where
  confidence : Option Nat := none
  error : Option String := none
  protocolName : Option String := none
  atomicEventCount : Option Nat := none
  fee : Option Nat := none
  logMessages : Option (List String) := none
deriving DecidableEq, Repr

/-- `metadata`: plugin name → plugin record, in insertion order. -/
abbrev Metadata := List (String × PluginMeta)

/-- `SemanticEvent` of `types.ts`.  `createFailedTransactionEvent` sets no
`metadata` key and `ComplexTransactionEvent.subEvents` is always `[]` in the
source, so neither is carried.  `transferType` is the literal the source
stores (`'DIRECT'`). -/
inductive SemanticEvent
  | swap (signature : String) (timestamp : Option Int) (atomicEvents : List AtomicEvent)
      (swapper : String) (tokenIn tokenOut : TokenInfo) (rate : Option String)
      (metadata : Metadata)
  | transfer (signature : String) (timestamp : Option Int) (atomicEvents : List AtomicEvent)
      (sender receiver : String) (token : TokenInfo) (transferType : String)
      (metadata : Metadata)
  | failed (signature : String) (timestamp : Option Int) (atomicEvents : List AtomicEvent)
      (error : String) (feePaid : Nat) (feePayer : String)
  | complex (signature : String) (timestamp : Option Int) (atomicEvents : List AtomicEvent)
      (metadata : Metadata)
  | unknown (signature : String) (timestamp : Option Int) (atomicEvents : List AtomicEvent)
      (reason : String) (unmatchedEventsCount : Nat) (metadata : Metadata)
deriving DecidableEq, Repr

/-- The discriminant string stored in the source's `type` field. -/
def SemanticEvent.typeName : SemanticEvent → String
  | .swap .. => "SWAP"
  | .transfer .. => "TRANSFER"
  | .failed .. => "TRANSACTION_FAILED"
  | .complex .. => "COMPLEX_TRANSACTION"
  | .unknown .. => "UNKNOWN_TRANSACTION"

/-- The `metadata` object of an event (`undefined` on failed events is
modelled as the empty record). -/
def SemanticEvent.metadataOf : SemanticEvent → Metadata
  | .swap _ _ _ _ _ _ _ md => md
  | .transfer _ _ _ _ _ _ _ md => md
  | .failed .. => []
  | .complex _ _ _ md => md
  | .unknown _ _ _ _ _ md => md

/-- `metadata[k]` lookup. -/
def metaLookup (md : Metadata) (k : String) : Option PluginMeta :=
  (md.find? (fun p => p.1 = k)).map (·.2)

/-- `metadata.aggregator.confidence` of an event, when present
(in hundredths). -/
def SemanticEvent.aggConfidence (ev : SemanticEvent) : Option Nat :=
  (metaLookup ev.metadataOf "aggregator").bind (·.confidence)

/-- Internal `TokenMovement` record of `EventAggregator`. -/
inductive Direction
  | dirIn
  | dirOut
deriving DecidableEq, Repr

structure TokenMovement where
  account : String
  mint : String
  amount : Nat
  decimals : Nat
  direction : Direction
  atomicEvent : AtomicEvent
deriving DecidableEq, Repr

/-- `EventAggregator.extractTokenMovements`: every atomic event yields one
movement; SOL events use the `'SOL'` mint literal and 9 decimals. -/
def extractTokenMovements (events : List AtomicEvent) : List TokenMovement :=
  events.map (fun e =>
    match e.type with
    | .debitSpl => ⟨e.account, e.mint, e.amount, e.decimals, .dirOut, e⟩
    | .creditSpl => ⟨e.account, e.mint, e.amount, e.decimals, .dirIn, e⟩
    | .debitSol => ⟨e.account, "SOL", e.amount, 9, .dirOut, e⟩
    | .creditSol => ⟨e.account, "SOL", e.amount, 9, .dirIn, e⟩)

/-- Insertion-ordered grouping, as a JavaScript `Map<string, T[]>` built by
`get`/`push`/`set` produces. -/
def addToGroup (acc : List (String × List TokenMovement)) (k : String)
    (m : TokenMovement) : List (String × List TokenMovement) :=
  if acc.any (fun p => p.1 = k) then
    acc.map (fun p => if p.1 = k then (p.1, p.2 ++ [m]) else p)
  else acc ++ [(k, [m])]

def groupByKey (key : TokenMovement → String) (ms : List TokenMovement) :
    List (String × List TokenMovement) :=
  ms.foldl (fun acc m => addToGroup acc (key m) m) []

/-- `EventAggregator.amountsMatch`.  Apart from computing the scale factor
`BigInt(Math.floor(this.config.amountTolerance * 100000))` — carried here as
`cfg.amountToleranceScaled` — everything is `BigInt` (integer) arithmetic in
the source: `tolerance = larger * scale / 100000` with flooring division. -/
def amountsMatch (cfg : AggConfig) (amount1 amount2 : Nat) : Bool :=
  if amount1 = amount2 then true
  else
    let larger := max amount1 amount2
    let smaller := min amount1 amount2
    let difference := larger - smaller
    decide (difference ≤ larger * cfg.amountToleranceScaled / 100000)

/-- Internal `SwapCandidate` record. -/
structure SwapCandidate where
  swapper : String
  tokenIn : TokenInfo
  tokenOut : TokenInfo
  atomicEvents : List AtomicEvent
  confidence : Nat
deriving DecidableEq, Repr

/-- Internal `TransferCandidate` record. -/
structure TransferCandidate where
  sender : String
  receiver : String
  token : TokenInfo
  atomicEvents : List AtomicEvent
  confidence : Nat
deriving DecidableEq, Repr

/-- `EventAggregator.calculateSwapConfidence`, in exact hundredths
(0.5 ↦ 50, 0.2 ↦ 20, 0.3 ↦ 30, cap `Math.min(confidence, 1.0)` ↦ 100); see
the header note on confidence arithmetic. -/
def calculateSwapConfidence (inMove outMove : TokenMovement)
    (allMovements : List TokenMovement) : Nat :=
  let base : Nat := 50
  let withAmounts := if 0 < inMove.amount ∧ 0 < outMove.amount then base + 20 else base
  let withOnly :=
    if (allMovements.filter (fun m => m.account = inMove.account)).length = 2 then
      withAmounts + 30
    else withAmounts
  min withOnly 100

/-- `EventAggregator.calculateTransferConfidence`, in exact hundredths
(0.6 ↦ 60, 0.3 ↦ 30, 0.25 ↦ 25, 0.2 ↦ 20, cap ↦ 100). -/
def calculateTransferConfidence (cfg : AggConfig) (inMove outMove : TokenMovement)
    (allMovements : List TokenMovement) : Nat :=
  let base : Nat := 60
  let withMatch :=
    if inMove.amount = outMove.amount then base + 30
    else if amountsMatch cfg inMove.amount outMove.amount then base + 25
    else base
  let withSimple :=
    if (allMovements.filter (fun m => m.mint = inMove.mint)).length = 2 then
      withMatch + 20
    else withMatch
  min withSimple 100

/-- `EventAggregator.identifySwapPattern`: first account (in grouping order)
with an IN×OUT pair of different mints whose confidence exceeds 0.7
(70 hundredths). -/
def identifySwapPattern (events : List AtomicEvent) : Option SwapCandidate :=
  let movements := extractTokenMovements events
  let accountMovements := groupByKey (·.account) movements
  accountMovements.findSome? (fun p =>
    let inMovements := p.2.filter (fun m => m.direction = .dirIn)
    let outMovements := p.2.filter (fun m => m.direction = .dirOut)
    inMovements.findSome? (fun inMove =>
      outMovements.findSome? (fun outMove =>
        if inMove.mint ≠ outMove.mint then
          let confidence := calculateSwapConfidence inMove outMove movements
          if 70 < confidence then
            some ⟨p.1, ⟨outMove.mint, outMove.amount, outMove.decimals⟩,
                  ⟨inMove.mint, inMove.amount, inMove.decimals⟩,
                  [inMove.atomicEvent, outMove.atomicEvent], confidence⟩
          else none
        else none)))

/-- `EventAggregator.identifyTransferPattern`: first mint (in grouping
order) with an OUT→IN pair on different accounts matching within tolerance
whose confidence exceeds 0.8 (80 hundredths).  The stored token amount is
the outgoing (debit) amount. -/
def identifyTransferPattern (cfg : AggConfig) (events : List AtomicEvent) :
    Option TransferCandidate :=
  let movements := extractTokenMovements events
  let tokenMovements := groupByKey (·.mint) movements
  tokenMovements.findSome? (fun p =>
    let inMovements := p.2.filter (fun m => m.direction = .dirIn)
    let outMovements := p.2.filter (fun m => m.direction = .dirOut)
    inMovements.findSome? (fun inMove =>
      outMovements.findSome? (fun outMove =>
        if inMove.account ≠ outMove.account then
          if amountsMatch cfg inMove.amount outMove.amount then
            let confidence := calculateTransferConfidence cfg inMove outMove movements
            if 80 < confidence then
              some ⟨outMove.account, inMove.account,
                    ⟨p.1, outMove.amount, outMove.decimals⟩,
                    [inMove.atomicEvent, outMove.atomicEvent], confidence⟩
            else none
          else none
        else none)))

/-- `EventAggregator.filterFeeEvents`: keep every event except SOL debits
whose amount equals the transaction fee. -/
def filterFeeEvents (events : List AtomicEvent) (tx : RawTx) : List AtomicEvent :=
  events.filter (fun e =>
    if e.type = .debitSol then decide (e.amount ≠ tx.fee) else true)

/-- `EventAggregator.createFailedTransactionEvent`.  The fee payer is
`feeEvent?.account || accountKeys[0] || 'unknown'` with JavaScript
truthiness. -/
def createFailedTransactionEvent (atomicEvents : List AtomicEvent) (tx : RawTx) :
    SemanticEvent :=
  let feeEvent := atomicEvents.find? (fun e =>
    e.type = .debitSol ∧ e.amount = tx.fee)
  .failed tx.signature tx.blockTime atomicEvents (tx.err.getD "") tx.fee
    (jsOrStr (feeEvent.map (·.account)) (jsOrStr (tx.accountKeys.get? 0) "unknown"))

/-- `EventAggregator.createSwapEvent` (rate = `tokenOut / tokenIn` as a
display string, only when `tokenIn > 0`). -/
def createSwapEvent (candidate : SwapCandidate) (tx : RawTx) : SemanticEvent :=
  let rate : Option String :=
    if 0 < candidate.tokenIn.amount then
      some (jsDivToString candidate.tokenOut.amount candidate.tokenIn.amount)
    else none
  .swap tx.signature tx.blockTime candidate.atomicEvents candidate.swapper
    candidate.tokenIn candidate.tokenOut rate
    [("aggregator", { confidence := some candidate.confidence })]

/-- `EventAggregator.createTransferEvent`. -/
def createTransferEvent (candidate : TransferCandidate) (tx : RawTx) : SemanticEvent :=
  .transfer tx.signature tx.blockTime candidate.atomicEvents candidate.sender
    candidate.receiver candidate.token "DIRECT"
    [("aggregator", { confidence := some candidate.confidence })]

/-- `EventAggregator.createComplexTransactionEvent`. -/
def createComplexTransactionEvent (atomicEvents : List AtomicEvent) (tx : RawTx) :
    SemanticEvent :=
  .complex tx.signature tx.blockTime atomicEvents
    [("aggregator", { atomicEventCount := some atomicEvents.length })]

/-- `EventAggregator.createUnknownTransactionEvent`. -/
def createUnknownTransactionEvent (atomicEvents : List AtomicEvent) (tx : RawTx)
    (reason : String) : SemanticEvent :=
  .unknown tx.signature tx.blockTime atomicEvents reason atomicEvents.length
    [("system", { fee := some tx.fee, logMessages := some tx.logMessages })]

/-- The enricher plugin interface: `enrich(event, rawTx)`, an asynchronous
call that may reject.  A rejected promise rethrows at the `await` site, so
the call is modelled as `Except`: `.error` is a rejection. -/
abbrev Enricher := SemanticEvent → RawTx → Except String SemanticEvent

/-- The sequential enrichment loop
`for (const enricher of this.enrichers) { event = await enricher.enrich(event, tx) }`:
a rejection aborts the loop and propagates. -/
def enrichAll (enrichers : List Enricher) (tx : RawTx) (ev : SemanticEvent) :
    Except String SemanticEvent :=
  match enrichers with
  | [] => .ok ev
  | f :: rest =>
    match f ev tx with
    | .ok ev' => enrichAll rest tx ev'
    | .error msg => .error msg

/-- The `${e.signature}-${e.type}-${e.account}` de-duplication key. -/
def eventKey (e : AtomicEvent) : String :=
  e.signature ++ "-" ++ e.type.str ++ "-" ++ e.account

/-- `EventAggregator.aggregate`.  The returned promise either resolves with
the (enriched) semantic event or rejects when an enricher rejects. -/
def aggregate (cfg : AggConfig) (enrichers : List Enricher)
    (atomicEvents : List AtomicEvent) (tx : RawTx) : Except String SemanticEvent :=
  if tx.err.isSome then
    enrichAll enrichers tx (createFailedTransactionEvent atomicEvents tx)
  else
    let filteredEvents :=
      if cfg.includeFeeEvents then atomicEvents else filterFeeEvents atomicEvents tx
    if filteredEvents.length = 0 then
      enrichAll enrichers tx
        (createUnknownTransactionEvent atomicEvents tx "No meaningful events after filtering")
    else
      match identifySwapPattern filteredEvents with
      | some candidate => enrichAll enrichers tx (createSwapEvent candidate tx)
      | none =>
        match identifyTransferPattern cfg filteredEvents with
        | some candidate =>
          let usedEventSignatures := candidate.atomicEvents.map eventKey
          let unmatchedEvents :=
            filteredEvents.filter (fun e => ¬ eventKey e ∈ usedEventSignatures)
          if 0 < unmatchedEvents.length ∧ cfg.generateComplexEvents then
            enrichAll enrichers tx (createComplexTransactionEvent filteredEvents tx)
          else
            enrichAll enrichers tx (createTransferEvent candidate tx)
        | none =>
          if 1 < filteredEvents.length ∧ cfg.generateComplexEvents then
            enrichAll enrichers tx (createComplexTransactionEvent filteredEvents tx)
          else
            enrichAll enrichers tx
              (createUnknownTransactionEvent atomicEvents tx "Could not identify transaction pattern")

end aggregator

namespace claims

open jsharness statediff aggregator

/-- Follows the spec's words only (for comparison with the source's
`filterFeeEvents`): the §4.1 exactly-one heuristic lifted to atomic events —
"if exactly one change equals `-fee`, drop it; when multiple qualify, keep
all". -/
def specFeeEventFilter (events : List AtomicEvent) (fee : Nat) : List AtomicEvent :=
  let feeDebits := events.filter (fun e => e.type = .debitSol ∧ e.amount = fee)
  if feeDebits.length = 1 then
    events.filter (fun e => ¬ (e.type = .debitSol ∧ e.amount = fee))
  else events

def c1Events : List AtomicEvent :=
  [{ type := .debitSol, account := "acctA", amount := 5000, signature := "sig1" },
   { type := .debitSol, account := "acctB", amount := 5000, signature := "sig1" }]

def c1Tx : RawTx := { fee := 5000 }

def c1wEvents : List AtomicEvent :=
  [{ type := .debitSol, account := "payer", amount := 5000, signature := "sig1" },
   { type := .creditSol, account := "dest", amount := 700, signature := "sig1" }]

def c5Events : List AtomicEvent :=
  [{ type := .debitSol, account := "payer", amount := 5000, signature := "sigF" }]

def c5Tx : RawTx :=
  { signature := "sigF", err := some "InstructionError", fee := 5000,
    accountKeys := ["payer", "dest"] }

def c9Tx : RawTx := { signature := "sigU", err := some "custom", fee := 9999 }

end claims

namespace aggregator

/-- JavaScript object spread `{...metadata, [k]: record}`: an existing key is
replaced in place, a new key is appended (JS objects keep insertion order). -/
def setMeta (md : Metadata) (k : String) (v : PluginMeta) : Metadata :=
  if md.any (fun p => p.1 = k) then md.map (fun p => if p.1 = k then (k, v) else p)
  else md ++ [(k, v)]

/-- `{...event, metadata: {...event.metadata, [k]: record}}`.  The embedded
enricher writes metadata only behind its SWAP guard, where the event carries
a metadata object; `.failed` (whose source literal has no `metadata` key) is
returned unchanged and is unreachable from that guard. -/
def SemanticEvent.withMeta : SemanticEvent → String → PluginMeta → SemanticEvent
  | .swap s t a sw tin tout r md, k, v => .swap s t a sw tin tout r (setMeta md k v)
  | .transfer s t a se re tok tt md, k, v => .transfer s t a se re tok tt (setMeta md k v)
  | .complex s t a md, k, v => .complex s t a (setMeta md k v)
  | .unknown s t a re c md, k, v => .unknown s t a re c (setMeta md k v)
  | .failed s t a er fp fpr, _, _ => .failed s t a er fp fpr

/-- `JupiterEnricher.enrich`: a no-op on non-SWAP events; on SWAP events the
whole body runs inside `try { … } catch (e) { return {...event, metadata:
{..., jupiter_v6: {error: 'Unexpected error in JupiterEnricher: ' + e.message}}} }`.
`body` abstracts that try-block (instruction scanning and Borsh decoding,
implemented against an external library); its `.error` outcome models the
block throwing.  Whatever `body` does, `enrich` itself always resolves. -/
def jupiterEnrich (body : Enricher) : Enricher := fun ev tx =>
  if ev.typeName = "SWAP" then
    match body ev tx with
    | .ok ev' => .ok ev'
    | .error msg =>
      .ok (ev.withMeta "jupiter_v6"
        { error := some ("Unexpected error in JupiterEnricher: " ++ msg) })
  else .ok ev

/-- A contract-violating enricher whose `enrich` promise always rejects. -/
def throwingEnricher : Enricher := fun _ _ => .error "enricher exploded"

end aggregator

namespace claims

open jsharness statediff aggregator

/-- The native pre-balance at account index `i` (`preBalances[i] || 0`). -/
def solPreAt (tx : RawTx) (i : Nat) : Nat := tx.preBalances.getD i 0

/-- The native post-balance at account index `i`. -/
def solPostAt (tx : RawTx) (i : Nat) : Nat := tx.postBalances.getD i 0

/-- The pre token amount recorded for account index `i` (0 when absent). -/
def splPreAt (tx : RawTx) (i : Nat) : Nat :=
  ((lookupTB tx.preTokenBalances i).map (fun b => b.amount)).getD 0

/-- The post token amount recorded for account index `i` (0 when absent). -/
def splPostAt (tx : RawTx) (i : Nat) : Nat :=
  ((lookupTB tx.postTokenBalances i).map (fun b => b.amount)).getD 0

/-- A transaction whose only native change is `1 → 2⁶⁰`: both balances are
exactly representable doubles, but the exact difference `2⁶⁰ − 1` needs 60
significant bits and rounds up to `2⁶⁰` in binary64 subtraction. -/
def c2Tx : RawTx :=
  { signature := "sigC2", fee := 5000, preBalances := [1],
    postBalances := [1152921504606846976], accountKeys := ["acct"] }

/-- A transaction whose token amounts exceed the 64-bit range: the spec's
example `18446744073709551615` minus half of itself. -/
def c2wTx : RawTx :=
  { signature := "sigC2w", fee := 5000,
    preBalances := [10], postBalances := [4],
    preTokenBalances :=
      [{ accountIndex := 1, mint := "M", owner := "own", programId := "tok",
         amount := 18446744073709551615, decimals := 9 }],
    postTokenBalances :=
      [{ accountIndex := 1, mint := "M", owner := "own", programId := "tok",
         amount := 9223372036854775807, decimals := 9 }],
    accountKeys := ["acct", "tacct"] }

def c3Debit : AtomicEvent :=
  { type := .debitSol, account := "alice", amount := 250000000, signature := "sig3" }

def c3Credit : AtomicEvent :=
  { type := .creditSol, account := "bob", amount := 250000000, signature := "sig3" }

def c3Tx : RawTx := { signature := "sig3", fee := 5000 }

def c3wDebit : AtomicEvent :=
  { type := .debitSol, account := "carol", amount := 42, signature := "sig3w" }

def c3wCredit : AtomicEvent :=
  { type := .creditSol, account := "dave", amount := 42, signature := "sig3w" }

def c3wTx : RawTx := { signature := "sig3w", fee := 5000 }

def c7Debit : AtomicEvent :=
  { type := .debitSpl, account := "swapperA", amount := 1000000, signature := "sig7",
    mint := "M1", tokenAccount := "ta1", owner := "swapperA", decimals := 6,
    programId := "tok" }

def c7Credit : AtomicEvent :=
  { type := .creditSpl, account := "swapperA", amount := 2000000, signature := "sig7",
    mint := "M2", tokenAccount := "ta2", owner := "swapperA", decimals := 6,
    programId := "tok" }

def c7Tx : RawTx := { signature := "sig7", fee := 5000 }

def c8Debit : AtomicEvent :=
  { type := .debitSpl, account := "senderS", amount := 100, signature := "sig8",
    mint := "M", tokenAccount := "t1", owner := "senderS", decimals := 0,
    programId := "tok" }

def c8Credit : AtomicEvent :=
  { type := .creditSpl, account := "recvR", amount := 100, signature := "sig8",
    mint := "M", tokenAccount := "t2", owner := "recvR", decimals := 0,
    programId := "tok" }

/-- An extra event the transfer pair does not use, but whose
`signature-type-account` key collides with the pair's credit event. -/
def c8Extra : AtomicEvent :=
  { type := .creditSpl, account := "recvR", amount := 50, signature := "sig8",
    mint := "M2", tokenAccount := "t3", owner := "recvR", decimals := 0,
    programId := "tok" }

def c8Tx : RawTx := { signature := "sig8", fee := 5000 }

def c8wDebit : AtomicEvent :=
  { type := .debitSpl, account := "senderW", amount := 400, signature := "sig8w",
    mint := "MW", tokenAccount := "w1", owner := "senderW", decimals := 2,
    programId := "tok" }

def c8wCredit : AtomicEvent :=
  { type := .creditSpl, account := "recvW", amount := 400, signature := "sig8w",
    mint := "MW", tokenAccount := "w2", owner := "recvW", decimals := 2,
    programId := "tok" }

def c8wTx : RawTx := { signature := "sig8w", fee := 5000 }

def c8wCand : TransferCandidate :=
  { sender := "senderW", receiver := "recvW",
    token := { mint := "MW", amount := 400, decimals := 2 },
    atomicEvents := [c8wCredit, c8wDebit], confidence := 100 }

def c4Tx : RawTx := { signature := "sig4", fee := 5000 }

/-- A SWAP event an enricher may receive. -/
def c4Swap : SemanticEvent :=
  .swap "sig4" none [] "acctA" ⟨"M1", 1, 6⟩ ⟨"M2", 2, 6⟩ none []

def c10Debit : AtomicEvent :=
  { type := .debitSpl, account := "swapperT", amount := 3000, signature := "sigX",
    mint := "MA", tokenAccount := "x1", owner := "swapperT", decimals := 3,
    programId := "tok" }

def c10Credit : AtomicEvent :=
  { type := .creditSpl, account := "swapperT", amount := 9000, signature := "sigX",
    mint := "MB", tokenAccount := "x2", owner := "swapperT", decimals := 3,
    programId := "tok" }

def c10Tx : RawTx := { signature := "sigX", fee := 5000 }

/-- The event `aggregate` produces on `[c10Debit, c10Credit]`. -/
def c10Expected : SemanticEvent :=
  .swap "sigX" none [c10Credit, c10Debit] "swapperT" ⟨"MA", 3000, 3⟩ ⟨"MB", 9000, 3⟩
    (some "3") [("aggregator", { confidence := some 100 })]

end claims

namespace jsharness

/-- An integer difference that fits in 53 bits is unchanged by double
rounding. -/
theorem roundNat53_small {n : Nat} (h : n < 2 ^ 53) : roundNat53 n = n := by
  unfold roundNat53
  rw [if_pos h]

/-- Exactness of JavaScript subtraction when the exact difference fits in 53
bits. -/
theorem jsIntSub_exact {a b : Nat} (h : ((a : Int) - b).natAbs < 2 ^ 53) :
    jsIntSub a b = (a : Int) - b := by
  unfold jsIntSub
  rcases le_or_lt b a with hba | hba
  · rw [if_pos hba, roundNat53_small]
    · omega
    · omega
  · rw [if_neg (by omega), roundNat53_small]
    · omega
    · omega

end jsharness

namespace claims

open jsharness statediff aggregator

/-- Claim C1, counterexample: with two native DEBIT events whose amount
equals the fee, the aggregator-side fee filter drops them **all**, while the
extractor's exactly-one heuristic (which the claim says it shares) keeps
both. -/
theorem filterFeeEvents_multi_debit_cex :
    (c1Events.filter (fun e => e.type = .debitSol ∧ e.amount = c1Tx.fee)).length = 2 ∧
    filterFeeEvents c1Events c1Tx = [] ∧
    specFeeEventFilter c1Events c1Tx.fee = c1Events := by
  decide

/-- Claim C1, amended: the aggregator-side fee filter drops **every** native
DEBIT whose amount equals `tx.meta.fee`, however many qualify; it coincides
with the extractor's exactly-one heuristic precisely when exactly one event
qualifies. -/
theorem filterFeeEvents_amended (events : List AtomicEvent) (tx : RawTx) :
    filterFeeEvents events tx =
      events.filter (fun e => ¬ (e.type = .debitSol ∧ e.amount = tx.fee)) ∧
    ((events.filter (fun e => e.type = .debitSol ∧ e.amount = tx.fee)).length = 1 →
      filterFeeEvents events tx = specFeeEventFilter events tx.fee) := by
  have hfilter : filterFeeEvents events tx =
      events.filter (fun e => ¬ (e.type = .debitSol ∧ e.amount = tx.fee)) := by
    unfold filterFeeEvents
    apply List.filter_congr
    intro e _
    by_cases h1 : e.type = .debitSol <;> by_cases h2 : e.amount = tx.fee <;>
      simp [h1, h2]
  refine ⟨hfilter, fun hone => ?_⟩
  unfold specFeeEventFilter
  rw [if_pos hone, hfilter]

/-- Witness for `filterFeeEvents_amended` at an input with exactly one
qualifying fee debit. -/
theorem filterFeeEvents_amended_witness :
    filterFeeEvents c1wEvents c1Tx = specFeeEventFilter c1wEvents c1Tx.fee :=
  (filterFeeEvents_amended c1wEvents c1Tx).2 (by decide)

/-- Claim C6: under the default tolerance ratio 0.001, a pair of amounts
differing by exactly `larger × 0.001` matches and a pair differing by one
unit more does not.  The tolerance is the integer computation
`larger * 100 / 100000` (see `amountsMatch`): no floating-point arithmetic
touches the amounts. -/
theorem amountsMatch_tolerance_boundary (a b : Nat) :
    (b ≤ a → 1000 * (a - b) = a → amountsMatch defaultAggConfig a b = true) ∧
    (b < a → 1000 * (a - b - 1) = a → amountsMatch defaultAggConfig a b = false) := by
  have hscale : defaultAggConfig.amountToleranceScaled = 100 := rfl
  constructor
  · intro hle hbound
    by_cases hab : a = b
    · simp [amountsMatch, hab]
    · unfold amountsMatch
      rw [if_neg hab, hscale]
      have hmax : max a b = a := max_eq_left hle
      have hmin : min a b = b := min_eq_right hle
      rw [hmax, hmin]
      have htol : a * 100 / 100000 = a - b := by
        have : a * 100 = (a - b) * 100000 := by omega
        rw [this, Nat.mul_div_cancel _ (by norm_num)]
      simp [htol]
  · intro hlt hbound
    have hab : a ≠ b := by omega
    unfold amountsMatch
    rw [if_neg hab, hscale]
    have hmax : max a b = a := max_eq_left (le_of_lt hlt)
    have hmin : min a b = b := min_eq_right (le_of_lt hlt)
    rw [hmax, hmin]
    have htol : a * 100 / 100000 = a - b - 1 := by
      have : a * 100 = (a - b - 1) * 100000 := by omega
      rw [this, Nat.mul_div_cancel _ (by norm_num)]
    simp [htol]
    omega

/-- Witness for `amountsMatch_tolerance_boundary`: 1000000 vs 999000
(difference exactly 0.1%) matches; 1000000 vs 998999 (one unit beyond) does
not. -/
theorem amountsMatch_tolerance_boundary_witness :
    amountsMatch defaultAggConfig 1000000 999000 = true ∧
    amountsMatch defaultAggConfig 1000000 998999 = false :=
  ⟨(amountsMatch_tolerance_boundary 1000000 999000).1 (by norm_num) (by norm_num),
   (amountsMatch_tolerance_boundary 1000000 998999).2 (by norm_num) (by norm_num)⟩


/-- Claim C5: with `meta.err` non-null, `aggregate` returns
TRANSACTION_FAILED regardless of the atomic events, with `feePaid = meta.fee`
and `feePayer` the account of the (first) native-DEBIT event whose amount
equals the fee, else the first account key.  The two side conditions say the
involved account strings are non-empty (addresses always are); they keep the
JavaScript `||` fallback from skipping an empty-string account. -/
theorem aggregate_failed_tx (cfg : AggConfig) (events : List AtomicEvent)
    (tx : RawTx) (msg : String) (herr : tx.err = some msg)
    (hacc : ∀ e ∈ events, e.account ≠ "")
    (hkey : ∀ k ∈ tx.accountKeys, k ≠ "") :
    aggregate cfg [] events tx =
      .ok (.failed tx.signature tx.blockTime events msg tx.fee
        (match events.find? (fun e => e.type = .debitSol ∧ e.amount = tx.fee) with
         | some e => e.account
         | none => tx.accountKeys.headD "unknown")) := by
  unfold aggregate
  rw [herr]
  unfold createFailedTransactionEvent enrichAll
  rw [herr]
  cases hfind : events.find? (fun e => e.type = .debitSol ∧ e.amount = tx.fee) with
  | some e =>
    have hmem : e ∈ events := List.mem_of_find?_eq_some hfind
    simp [hfind, jsOrStr, hacc e hmem]
  | none =>
    cases hks : tx.accountKeys with
    | nil => simp [hfind, hks, jsOrStr]
    | cons k ks =>
      have hk : k ≠ "" := hkey k (by rw [hks]; exact List.mem_cons_self k ks)
      simp [hfind, hks, jsOrStr, hk]

/-- Witness for `aggregate_failed_tx`: a failed transaction whose fee debit
identifies the payer. -/
theorem aggregate_failed_tx_witness :
    aggregate defaultAggConfig [] c5Events c5Tx =
      .ok (.failed "sigF" none c5Events "InstructionError" 5000 "payer") := by
  have h := aggregate_failed_tx defaultAggConfig c5Events c5Tx "InstructionError"
    rfl (by decide) (by decide)
  exact h

/-- Claim C9: with `meta.err` non-null, no fee-matching native DEBIT and an
empty `accountKeys`, the fee-payer lookup is total and falls back to the
literal string `"unknown"` — `aggregate` still resolves with a
TRANSACTION_FAILED event, never an exception or an undefined value. -/
theorem aggregate_failed_feePayer_unknown (cfg : AggConfig)
    (events : List AtomicEvent) (tx : RawTx) (msg : String)
    (herr : tx.err = some msg)
    (hnofee : ∀ e ∈ events, ¬ (e.type = .debitSol ∧ e.amount = tx.fee))
    (hkeys : tx.accountKeys = []) :
    aggregate cfg [] events tx =
      .ok (.failed tx.signature tx.blockTime events msg tx.fee "unknown") := by
  have hfind : events.find?
      (fun e => decide (e.type = .debitSol) && decide (e.amount = tx.fee)) = none := by
    rw [List.find?_eq_none]
    intro e he
    simpa using hnofee e he
  unfold aggregate
  rw [herr]
  unfold createFailedTransactionEvent enrichAll
  rw [herr]
  simp [hfind, hkeys, jsOrStr]

/-- Witness for `aggregate_failed_feePayer_unknown`: empty account keys and
no fee-matching debit yield the `"unknown"` fee payer. -/
theorem aggregate_failed_feePayer_unknown_witness :
    aggregate defaultAggConfig [] [] c9Tx =
      .ok (.failed "sigU" none [] "custom" 9999 "unknown") :=
  aggregate_failed_feePayer_unknown defaultAggConfig [] c9Tx "custom" rfl
    (by intro e he; cases he) rfl

end claims

namespace claims

open jsharness statediff aggregator

/-- `filterFeeChanges` returns a sublist of its input. -/
theorem filterFeeChanges_mem {l : List BalanceChange} {fee : Nat} {c : BalanceChange}
    (h : c ∈ filterFeeChanges l fee) : c ∈ l := by
  simp only [filterFeeChanges] at h
  split at h
  · exact (List.mem_filter.mp h).1
  · exact h

/-- A recorded token-balance change is the exact `post − pre` of its index. -/
theorem mkTokenChange_change {tx : RawTx} {i : Nat} {c : TokenBalanceChange}
    (h : mkTokenChange tx i = some c) :
    c.change = (splPostAt tx i : Int) - splPreAt tx i := by
  unfold mkTokenChange at h
  split at h
  · split at h
    · cases h
      simp [splPostAt, splPreAt, *]
    · cases h
  · split at h
    · cases h
      simp [splPostAt, splPreAt, *]
    · cases h
  · split at h
    · cases h
      simp [splPostAt, splPreAt, *]
    · cases h
  · cases h

/-- Claim C2, counterexample: on the native side the amounts are JavaScript
`number`s.  With `preBalances = [1]` and `postBalances = [2⁶⁰]` (both exactly
representable doubles) the emitted CREDIT amount is the rounded difference
`2⁶⁰`, not the exact difference `2⁶⁰ − 1`. -/
theorem analyze_native_rounding_cex :
    analyze {} c2Tx =
      [{ type := .creditSol, account := "acct", amount := 1152921504606846976,
         signature := "sigC2" }] ∧
    ((solPostAt c2Tx 0 : Int) - solPreAt c2Tx 0).natAbs = 1152921504606846975 ∧
    (1152921504606846976 : Nat) ≠ 1152921504606846975 := by
  decide

/-- Claim C2, amended: every asset (SPL) event amount is the exact
arbitrary-precision `|post − pre|` of its token-balance record, with no size
restriction (`BigInt` arithmetic); every native event amount equals the exact
`|post − pre|` of its account index provided that exact difference fits in
53 bits — beyond that the binary64 subtraction may round (see the
counterexample). -/
theorem analyze_amount_exact_amended (cfg : AnalyzerConfig) (tx : RawTx) :
    (∀ e ∈ analyzeSplTokenBalanceChanges cfg tx, ∃ i ∈ splIndices tx,
        e.amount = ((splPostAt tx i : Int) - splPreAt tx i).natAbs) ∧
    ((∀ i ∈ List.range (max tx.preBalances.length tx.postBalances.length),
        ((solPostAt tx i : Int) - solPreAt tx i).natAbs < 2 ^ 53) →
      ∀ e ∈ analyzeSolBalanceChanges cfg tx, ∃ i,
        e.amount = ((solPostAt tx i : Int) - solPreAt tx i).natAbs) := by
  constructor
  · intro e he
    unfold analyzeSplTokenBalanceChanges at he
    obtain ⟨c, hc, hfc⟩ := List.mem_filterMap.mp he
    unfold tokenBalanceChanges at hc
    obtain ⟨i, hi, hmk⟩ := List.mem_filterMap.mp hc
    refine ⟨i, hi, ?_⟩
    have hamt : e.amount = c.change.natAbs := by
      split at hfc
      · cases hfc
        rfl
      · cases hfc
    rw [hamt, mkTokenChange_change hmk]
  · intro hsmall e he
    unfold analyzeSolBalanceChanges at he
    obtain ⟨c, hcf, hgc⟩ := List.mem_filterMap.mp he
    have hcc : c ∈ solBalanceChanges tx := by
      by_cases hinc : cfg.includeFeeChanges
      · simp only [hinc, if_true] at hcf
        exact hcf
      · simp only [hinc, Bool.false_eq_true, if_false] at hcf
        exact filterFeeChanges_mem hcf
    unfold solBalanceChanges at hcc
    obtain ⟨i, hi, hmk⟩ := List.mem_filterMap.mp hcc
    refine ⟨i, ?_⟩
    have hamt : e.amount = c.change.natAbs := by
      split at hgc
      · cases hgc
        rfl
      · cases hgc
    have hch : c.change = jsIntSub (solPostAt tx i) (solPreAt tx i) := by
      simp only [mkBalanceChange] at hmk
      split at hmk
      · cases hmk
      · cases hmk
        rfl
    rw [hamt, hch, jsIntSub_exact (hsmall i hi)]

/-- Witness for `analyze_amount_exact_amended`: a transaction whose token
amounts exceed the 64-bit range (`18446744073709551615` minus roughly half of
itself) and whose native difference fits in 53 bits. -/
theorem analyze_amount_exact_amended_witness :
    (∀ e ∈ analyzeSplTokenBalanceChanges {} c2wTx, ∃ i ∈ splIndices c2wTx,
        e.amount = ((splPostAt c2wTx i : Int) - splPreAt c2wTx i).natAbs) ∧
    (∀ e ∈ analyzeSolBalanceChanges {} c2wTx, ∃ i,
        e.amount = ((solPostAt c2wTx i : Int) - solPreAt c2wTx i).natAbs) :=
  ⟨(analyze_amount_exact_amended {} c2wTx).1,
   (analyze_amount_exact_amended {} c2wTx).2 (by decide)⟩

/-- Claim C3, counterexample: an equal native DEBIT/CREDIT pair on two
accounts aggregates to a TRANSFER whose token identifier is the literal
`"SOL"`, not the sentinel `"NATIVE"` the claim names. -/
theorem aggregate_native_transfer_mint_cex :
    aggregate defaultAggConfig [] [c3Debit, c3Credit] c3Tx =
      .ok (.transfer "sig3" none [c3Credit, c3Debit] "alice" "bob"
        ⟨"SOL", 250000000, 9⟩ "DIRECT" [("aggregator", { confidence := some 100 })]) ∧
    "SOL" ≠ "NATIVE" :=
  ⟨by rfl, by decide⟩

set_option maxHeartbeats 1000000 in
/-- Claim C3, amended: one native DEBIT and an equal native CREDIT on two
different accounts (after fee exclusion, in either order) aggregate to
TRANSFER with sender = debit account, receiver = credit account, amount =
that value, decimals = 9 (the native decimal count) and asset identifier the
code's native sentinel `"SOL"` (not `"NATIVE"`). -/
theorem aggregate_native_transfer_amended (events : List AtomicEvent) (tx : RawTx)
    (e1 e2 : AtomicEvent) (herr : tx.err = none)
    (h1 : e1.type = .debitSol) (h2 : e2.type = .creditSol)
    (hamt : e1.amount = e2.amount) (hacc : e1.account ≠ e2.account)
    (hfil : filterFeeEvents events tx = [e1, e2] ∨ filterFeeEvents events tx = [e2, e1]) :
    aggregate defaultAggConfig [] events tx =
      .ok (.transfer tx.signature tx.blockTime [e2, e1] e1.account e2.account
        ⟨"SOL", e1.amount, 9⟩ "DIRECT" [("aggregator", { confidence := some 100 })]) := by
  rcases hfil with hfil | hfil
  · have hmov : extractTokenMovements [e1, e2] =
        [⟨e1.account, "SOL", e1.amount, 9, .dirOut, e1⟩,
         ⟨e2.account, "SOL", e2.amount, 9, .dirIn, e2⟩] := by
      simp [extractTokenMovements, h1, h2]
    have hswap : identifySwapPattern [e1, e2] = none := by
      unfold identifySwapPattern
      rw [hmov]
      simp [groupByKey, addToGroup, hacc]
    have htrans : identifyTransferPattern defaultAggConfig [e1, e2] =
        some ⟨e1.account, e2.account, ⟨"SOL", e1.amount, 9⟩, [e2, e1], 100⟩ := by
      unfold identifyTransferPattern
      rw [hmov]
      simp [groupByKey, addToGroup, hacc, Ne.symm hacc, amountsMatch, hamt,
        calculateTransferConfidence]
    unfold aggregate
    rw [herr]
    simp only [Option.isSome_none, Bool.false_eq_true, if_false, reduceIte]
    rw [show defaultAggConfig.includeFeeEvents = false from rfl]
    simp only [Bool.false_eq_true, if_false, reduceIte]
    rw [hfil, hswap, htrans]
    simp [eventKey, enrichAll, createTransferEvent]
  · have hmov : extractTokenMovements [e2, e1] =
        [⟨e2.account, "SOL", e2.amount, 9, .dirIn, e2⟩,
         ⟨e1.account, "SOL", e1.amount, 9, .dirOut, e1⟩] := by
      simp [extractTokenMovements, h1, h2]
    have hswap : identifySwapPattern [e2, e1] = none := by
      unfold identifySwapPattern
      rw [hmov]
      simp [groupByKey, addToGroup, Ne.symm hacc]
    have htrans : identifyTransferPattern defaultAggConfig [e2, e1] =
        some ⟨e1.account, e2.account, ⟨"SOL", e1.amount, 9⟩, [e2, e1], 100⟩ := by
      unfold identifyTransferPattern
      rw [hmov]
      simp [groupByKey, addToGroup, hacc, Ne.symm hacc, amountsMatch, hamt,
        calculateTransferConfidence]
    unfold aggregate
    rw [herr]
    simp only [Option.isSome_none, Bool.false_eq_true, if_false, reduceIte]
    rw [show defaultAggConfig.includeFeeEvents = false from rfl]
    simp only [Bool.false_eq_true, if_false, reduceIte]
    rw [hfil, hswap, htrans]
    simp [eventKey, enrichAll, createTransferEvent]

/-- Witness for `aggregate_native_transfer_amended`. -/
theorem aggregate_native_transfer_amended_witness :
    aggregate defaultAggConfig [] [c3wDebit, c3wCredit] c3wTx =
      .ok (.transfer "sig3w" none [c3wCredit, c3wDebit] "carol" "dave"
        ⟨"SOL", 42, 9⟩ "DIRECT" [("aggregator", { confidence := some 100 })]) :=
  aggregate_native_transfer_amended [c3wDebit, c3wCredit] c3wTx c3wDebit c3wCredit
    rfl rfl rfl rfl (by decide) (.inl (by decide))

/-- Claim C7: DEBIT_ASSET(A, M1, 1000000) with CREDIT_ASSET(A, M2, 2000000)
on a successful transaction aggregates to SWAP with swapper A,
tokenIn = (M1, 1000000), tokenOut = (M2, 2000000) and rate `"2"`. -/
theorem aggregate_swap_example :
    aggregate defaultAggConfig [] [c7Debit, c7Credit] c7Tx =
      .ok (.swap "sig7" none [c7Credit, c7Debit] "swapperA" ⟨"M1", 1000000, 6⟩
        ⟨"M2", 2000000, 6⟩ (some "2") [("aggregator", { confidence := some 100 })]) := by
  rfl

end claims

namespace claims

open jsharness statediff aggregator

/-- Claim C8, counterexample: the transfer pair leaves `c8Extra` unused and
complex-event generation is on, yet `aggregate` emits the TRANSFER — the
"unused" check keys events by `signature-type-account`, and `c8Extra` shares
that key with the pair's credit event. -/
theorem aggregate_transfer_unused_collision_cex :
    identifyTransferPattern defaultAggConfig
        (filterFeeEvents [c8Debit, c8Credit, c8Extra] c8Tx) =
      some ⟨"senderS", "recvR", ⟨"M", 100, 0⟩, [c8Credit, c8Debit], 100⟩ ∧
    c8Extra ∈ filterFeeEvents [c8Debit, c8Credit, c8Extra] c8Tx ∧
    c8Extra ∉ [c8Credit, c8Debit] ∧
    defaultAggConfig.generateComplexEvents = true ∧
    aggregate defaultAggConfig [] [c8Debit, c8Credit, c8Extra] c8Tx =
      .ok (.transfer "sig8" none [c8Credit, c8Debit] "senderS" "recvR"
        ⟨"M", 100, 0⟩ "DIRECT" [("aggregator", { confidence := some 100 })]) :=
  ⟨by decide, by decide, by decide, rfl, by rfl⟩

/-- Claim C8, amended: when transfer detection finds a qualifying pair,
`aggregate` escalates to COMPLEX_TRANSACTION over all filtered events iff
some filtered event's `signature-type-account` key differs from the keys of
the pair's two events (and complex generation is enabled); otherwise it
emits the TRANSFER.  A leftover event that shares its key with a used event
therefore counts as used. -/
theorem aggregate_transfer_escalation_amended (cfg : AggConfig)
    (events : List AtomicEvent) (tx : RawTx)
    (filtered : List AtomicEvent) (c : TransferCandidate)
    (herr : tx.err = none)
    (hfil : (if cfg.includeFeeEvents then events else filterFeeEvents events tx) = filtered)
    (hswap : identifySwapPattern filtered = none)
    (htrans : identifyTransferPattern cfg filtered = some c) :
    ((∃ e ∈ filtered, eventKey e ∉ c.atomicEvents.map eventKey) ∧
        cfg.generateComplexEvents = true →
      aggregate cfg [] events tx = .ok (createComplexTransactionEvent filtered tx)) ∧
    ((∀ e ∈ filtered, eventKey e ∈ c.atomicEvents.map eventKey) →
      aggregate cfg [] events tx = .ok (createTransferEvent c tx)) := by
  have hne : filtered ≠ [] := by
    intro hnil
    rw [hnil] at htrans
    have hnone : identifyTransferPattern cfg [] = none := rfl
    rw [hnone] at htrans
    cases htrans
  have hlen : ¬ filtered.length = 0 := by
    simpa [List.length_eq_zero] using hne
  unfold aggregate
  rw [herr]
  simp only [Option.isSome_none, Bool.false_eq_true, if_false, reduceIte]
  rw [hfil, if_neg hlen]
  simp only [hswap, htrans]
  constructor
  · rintro ⟨⟨e, he, hkey⟩, hgen⟩
    have hmem : e ∈ filtered.filter (fun e => ¬ eventKey e ∈ c.atomicEvents.map eventKey) :=
      List.mem_filter.mpr ⟨he, by simpa using hkey⟩
    have hpos : 0 < (filtered.filter
        (fun e => ¬ eventKey e ∈ c.atomicEvents.map eventKey)).length :=
      List.length_pos.mpr (List.ne_nil_of_mem hmem)
    rw [if_pos ⟨hpos, hgen⟩]
    rfl
  · intro hall
    have hnil : filtered.filter
        (fun e => ¬ eventKey e ∈ c.atomicEvents.map eventKey) = [] := by
      rw [List.filter_eq_nil_iff]
      intro e he
      simpa using hall e he
    rw [hnil]
    simp only [List.length_nil, lt_irrefl, false_and, if_false, reduceIte]
    rfl

/-- Witness for `aggregate_transfer_escalation_amended`: a plain two-event
transfer where both filtered events are used by the pair. -/
theorem aggregate_transfer_escalation_amended_witness :
    aggregate defaultAggConfig [] [c8wDebit, c8wCredit] c8wTx =
      .ok (createTransferEvent c8wCand c8wTx) :=
  (aggregate_transfer_escalation_amended defaultAggConfig [c8wDebit, c8wCredit]
    c8wTx (filterFeeEvents [c8wDebit, c8wCredit] c8wTx) c8wCand rfl rfl
    (by decide) (by decide)).2 (by decide)

end claims

namespace claims

open jsharness statediff aggregator

/-- The catch-all wrapper of `JupiterEnricher.enrich` never rejects,
whatever its body does. -/
theorem jupiterEnrich_ok (body : Enricher) (ev : SemanticEvent) (tx : RawTx) :
    ∃ r, jupiterEnrich body ev tx = .ok r := by
  unfold jupiterEnrich
  split
  · cases body ev tx with
    | ok ev' => exact ⟨ev', rfl⟩
    | error msg => exact ⟨_, rfl⟩
  · exact ⟨ev, rfl⟩

/-- Every branch of `aggregate` ends in the sequential enrichment loop. -/
theorem aggregate_enrichAll_shape (cfg : AggConfig) (en : List Enricher)
    (events : List AtomicEvent) (tx : RawTx) :
    ∃ ev0, aggregate cfg en events tx = enrichAll en tx ev0 := by
  simp only [aggregate]
  repeat first | exact ⟨_, rfl⟩ | split

theorem find_map_replace (md : Metadata) (k : String) (v : PluginMeta)
    (h : md.any (fun p => p.1 = k)) :
    (md.map (fun p => if p.1 = k then (k, v) else p)).find? (fun p => p.1 = k) =
      some (k, v) := by
  induction md with
  | nil => exact Bool.noConfusion h
  | cons p ps ih =>
    by_cases hp : p.1 = k
    · rw [List.map_cons, if_pos hp]
      exact List.find?_cons_of_pos _ (decide_eq_true rfl)
    · have hps : ps.any (fun p => p.1 = k) := by simpa [List.any_cons, hp] using h
      rw [List.map_cons, if_neg hp, List.find?_cons_of_neg _ (by simp [hp])]
      exact ih hps

theorem find_append_missing (md : Metadata) (k : String) (v : PluginMeta)
    (h : ¬ md.any (fun p => p.1 = k)) :
    (md ++ [(k, v)]).find? (fun p => p.1 = k) = some (k, v) := by
  rw [List.find?_append]
  have hnone : md.find? (fun p => p.1 = k) = none := by
    rw [List.find?_eq_none]
    intro p hp hpk
    exact h (List.any_eq_true.mpr ⟨p, hp, hpk⟩)
  rw [hnone, Option.none_or]
  exact List.find?_cons_of_pos _ (decide_eq_true rfl)

/-- The JavaScript spread `{...metadata, [k]: record}` makes `metadata[k]`
the new record. -/
theorem setMeta_metaLookup (md : Metadata) (k : String) (v : PluginMeta) :
    metaLookup (setMeta md k v) k = some v := by
  unfold setMeta metaLookup
  by_cases h : md.any (fun p => p.1 = k)
  · rw [if_pos h, find_map_replace md k v h]
    rfl
  · rw [if_neg h, find_append_missing md k v h]
    rfl

/-- Claim C4, counterexample: `aggregate` awaits each `enrich` call with no
surrounding try/catch, so an enricher whose promise rejects makes the
`aggregate` promise reject — it does not resolve with error metadata. -/
theorem aggregate_enricher_rejection_cex :
    aggregate defaultAggConfig [throwingEnricher] [] c4Tx =
      .error "enricher exploded" := by
  rfl

/-- Claim C4, amended: `aggregate` itself propagates enricher rejections;
the no-throw guarantee lives in the plugin.  The bundled
`JupiterEnricher.enrich` wraps its whole body in a catch-all, so with it
configured `aggregate` always resolves, and when the body fails on a SWAP
event the returned event carries
`metadata['jupiter_v6'].error = 'Unexpected error in JupiterEnricher: …'`. -/
theorem aggregate_enricher_failure_contained (cfg : AggConfig)
    (events : List AtomicEvent) (tx : RawTx) (body : Enricher) :
    (∃ result, aggregate cfg [jupiterEnrich body] events tx = .ok result) ∧
    (∀ ev msg, ev.typeName = "SWAP" → body ev tx = .error msg →
      ∃ ev', jupiterEnrich body ev tx = .ok ev' ∧
        (metaLookup ev'.metadataOf "jupiter_v6").map (fun m => m.error) =
          some (some ("Unexpected error in JupiterEnricher: " ++ msg))) := by
  constructor
  · obtain ⟨ev0, h0⟩ := aggregate_enrichAll_shape cfg [jupiterEnrich body] events tx
    obtain ⟨r, hr⟩ := jupiterEnrich_ok body ev0 tx
    refine ⟨r, ?_⟩
    rw [h0]
    unfold enrichAll
    rw [hr]
    rfl
  · intro ev msg hty hbody
    refine ⟨ev.withMeta "jupiter_v6"
      { error := some ("Unexpected error in JupiterEnricher: " ++ msg) }, ?_, ?_⟩
    · unfold jupiterEnrich
      rw [if_pos hty, hbody]
    · cases ev with
      | swap s t a sw tin tout r md =>
        simp only [SemanticEvent.withMeta, SemanticEvent.metadataOf]
        rw [setMeta_metaLookup]
        rfl
      | transfer s t a se re tok tt md => simp [SemanticEvent.typeName] at hty
      | failed s t a er fp fpr => simp [SemanticEvent.typeName] at hty
      | complex s t a md => simp [SemanticEvent.typeName] at hty
      | unknown s t a re cnt md => simp [SemanticEvent.typeName] at hty

/-- Witness for `aggregate_enricher_failure_contained`: a failing body on a
concrete SWAP event. -/
theorem aggregate_enricher_failure_contained_witness :
    ∃ ev', jupiterEnrich (fun _ _ => .error "decode blew up") c4Swap c4Tx = .ok ev' ∧
      (metaLookup ev'.metadataOf "jupiter_v6").map (fun m => m.error) =
        some (some ("Unexpected error in JupiterEnricher: " ++ "decode blew up")) :=
  (aggregate_enricher_failure_contained defaultAggConfig [] c4Tx
    (fun _ _ => .error "decode blew up")).2 c4Swap "decode blew up" rfl rfl

end claims

namespace claims

open jsharness statediff aggregator

/-- A swap candidate is only produced above the 0.7 threshold, and its
score is capped at 1.0 (values in hundredths). -/
theorem identifySwapPattern_confidence {events : List AtomicEvent} {c : SwapCandidate}
    (h : identifySwapPattern events = some c) :
    70 < c.confidence ∧ c.confidence ≤ 100 := by
  unfold identifySwapPattern at h
  obtain ⟨p, _, h1⟩ := List.exists_of_findSome?_eq_some h
  obtain ⟨inM, _, h2⟩ := List.exists_of_findSome?_eq_some h1
  obtain ⟨outM, _, h3⟩ := List.exists_of_findSome?_eq_some h2
  split at h3
  · simp only [] at h3
    split at h3
    · cases h3
      refine ⟨by assumption, ?_⟩
      simp only [calculateSwapConfidence]
      exact min_le_right _ _
    · cases h3
  · cases h3

/-- A transfer candidate is only produced above the 0.8 threshold, and its
score is capped at 1.0 (values in hundredths). -/
theorem identifyTransferPattern_confidence {cfg : AggConfig}
    {events : List AtomicEvent} {c : TransferCandidate}
    (h : identifyTransferPattern cfg events = some c) :
    80 < c.confidence ∧ c.confidence ≤ 100 := by
  unfold identifyTransferPattern at h
  obtain ⟨p, _, h1⟩ := List.exists_of_findSome?_eq_some h
  obtain ⟨inM, _, h2⟩ := List.exists_of_findSome?_eq_some h1
  obtain ⟨outM, _, h3⟩ := List.exists_of_findSome?_eq_some h2
  split at h3
  · split at h3
    · simp only [] at h3
      split at h3
      · cases h3
        refine ⟨by assumption, ?_⟩
        simp only [calculateTransferConfidence]
        exact min_le_right _ _
      · cases h3
    · cases h3
  · cases h3

/-- Claim C10: any SWAP or TRANSFER event `aggregate` returns with an empty
enricher list carries `metadata.aggregator.confidence`, strictly above the
variant's detection threshold (0.7 for SWAP, 0.8 for TRANSFER — 70/80 in
hundredths) and at most 1.0 (100). -/
theorem aggregate_confidence_bounds (cfg : AggConfig) (events : List AtomicEvent)
    (tx : RawTx) (result : SemanticEvent)
    (hagg : aggregate cfg [] events tx = .ok result) :
    (result.typeName = "SWAP" → ∃ conf, result.aggConfidence = some conf ∧
      70 < conf ∧ conf ≤ 100) ∧
    (result.typeName = "TRANSFER" → ∃ conf, result.aggConfidence = some conf ∧
      80 < conf ∧ conf ≤ 100) := by
  simp only [aggregate] at hagg
  split at hagg
  · simp only [enrichAll] at hagg
    cases hagg
    refine ⟨fun hty => ?_, fun hty => ?_⟩ <;>
      simp [createFailedTransactionEvent, SemanticEvent.typeName] at hty
  · generalize hF : (if cfg.includeFeeEvents = true then events
      else filterFeeEvents events tx) = filtered at hagg
    split at hagg
    · simp only [enrichAll] at hagg
      cases hagg
      refine ⟨fun hty => ?_, fun hty => ?_⟩ <;>
        simp [createUnknownTransactionEvent, SemanticEvent.typeName] at hty
    · split at hagg
      · rename_i candidate heq
        simp only [enrichAll] at hagg
        cases hagg
        refine ⟨fun _ => ?_, fun hty => ?_⟩
        · exact ⟨candidate.confidence, rfl, (identifySwapPattern_confidence heq).1,
            (identifySwapPattern_confidence heq).2⟩
        · simp [createSwapEvent, SemanticEvent.typeName] at hty
      · split at hagg
        · rename_i candidate heq2
          split at hagg
          · simp only [enrichAll] at hagg
            cases hagg
            refine ⟨fun hty => ?_, fun hty => ?_⟩ <;>
              simp [createComplexTransactionEvent, SemanticEvent.typeName] at hty
          · simp only [enrichAll] at hagg
            cases hagg
            refine ⟨fun hty => ?_, fun _ => ?_⟩
            · simp [createTransferEvent, SemanticEvent.typeName] at hty
            · exact ⟨candidate.confidence, rfl, (identifyTransferPattern_confidence heq2).1,
                (identifyTransferPattern_confidence heq2).2⟩
        · split at hagg
          · simp only [enrichAll] at hagg
            cases hagg
            refine ⟨fun hty => ?_, fun hty => ?_⟩ <;>
              simp [createComplexTransactionEvent, SemanticEvent.typeName] at hty
          · simp only [enrichAll] at hagg
            cases hagg
            refine ⟨fun hty => ?_, fun hty => ?_⟩ <;>
              simp [createUnknownTransactionEvent, SemanticEvent.typeName] at hty

/-- Witness for `aggregate_confidence_bounds` at a concrete swap. -/
theorem aggregate_confidence_bounds_witness :
    ∃ conf, c10Expected.aggConfidence = some conf ∧ 70 < conf ∧ conf ≤ 100 :=
  (aggregate_confidence_bounds defaultAggConfig [c10Debit, c10Credit] c10Tx
    c10Expected (by rfl)).1 (by rfl)

end claims
